import Mathlib

/-!
Verification development for the crow voice-assistant orchestrator.

Shallow embedding of the conversation-memory, ReAct-agent, session-handler
and paraformer-ASR code, with theorems checking the natural-language
specification against it.  Each definition is translated from a named Go
function of the repository; the theorems are grouped per claim at the end.
-/

namespace Crow

/-! ## Schema (crow/internal/agent/schema and crow/internal/schema) -/

/-- Message roles (`schema.Role`). -/
inductive Role where
  | system
  | user
  | assistant
  | tool
  deriving DecidableEq, Repr

/-- `schema.ToolCallFunction`. -/
structure ToolCallFunction where
  name : String
  arguments : String
  deriving DecidableEq, Repr

/-- `schema.ToolCall`. -/
structure ToolCall where
  id : String
  type : String
  function : ToolCallFunction
  deriving DecidableEq, Repr

/-- `schema.Message`. -/
structure Message where
  role : Role
  content : String
  toolCalls : List ToolCall
  name : String
  toolCallID : String
  base64Image : String
  deriving DecidableEq, Repr

/-- Go zero value of `schema.Message` (what the backward scan of
`FormatMessages` yields when no assistant message exists). -/
def Message.zero : Message :=
  ⟨Role.system, "", [], "", "", ""⟩

/-- `schema.UserMessage`. -/
def UserMessage (content base64Image : String) : Message :=
  ⟨Role.user, content, [], "", "", base64Image⟩

/-- `schema.SystemMessage`. -/
def SystemMessage (content : String) : Message :=
  ⟨Role.system, content, [], "", "", ""⟩

/-- `schema.AssistantMessage`. -/
def AssistantMessage (content base64Image : String) : Message :=
  ⟨Role.assistant, content, [], "", "", base64Image⟩

/-- `schema.ToolMessage`. -/
def ToolMessage (content name toolCallID base64Image : String) : Message :=
  ⟨Role.tool, content, [], name, toolCallID, base64Image⟩

/-- `schema.FromToolCalls`. -/
def FromToolCalls (toolCalls : List ToolCall) (content base64Image : String) : Message :=
  ⟨Role.assistant, content, toolCalls, "", "", base64Image⟩

/-- `schema.ToolChoice`. -/
inductive ToolChoice where
  | none
  | auto
  | required
  deriving DecidableEq, Repr

/-- `schema.AgentState`. -/
inductive AgentState where
  | idle
  | running
  | finished
  | error
  deriving DecidableEq, Repr

/-! ## DefaultMemory (crow/internal/agent/memory, src/unnamed/part_003) -/

namespace DefaultMemory

/-- `NewDefaultMemory`, reduced to the normalization of its `maxMessages`
argument: arguments ≤ 5 are replaced by the default 20, larger arguments are
kept. -/
def newMaxMessages (maxMessages : Int) : Int :=
  if maxMessages ≤ 5 then 20 else maxMessages

/-- Insertion into the `toolMessages` set of `FormatMessages`
(`map[string]struct{}`): ids are collected without duplicates. -/
def insertID (id : String) (ids : List String) : List String :=
  if id ∈ ids then ids else id :: ids

/-- The backward walk of the `RoleTool` branch of `DefaultMemory.FormatMessages`:
given the messages in reverse order, collect the `ToolCallID` of every tool
message until the nearest assistant message, and return that assistant message
(Go zero value if none is found). -/
def scanBack : List Message → List String → List String × Message
  | [], ids => (ids, Message.zero)
  | m :: rest, ids =>
    if m.role = Role.assistant then (ids, m)
    else if m.role = Role.tool then scanBack rest (insertID m.toolCallID ids)
    else scanBack rest ids

/-- The synthetic repair message appended by `FormatMessages` for an
unanswered tool call. -/
def interruptedToolMessage (tc : ToolCall) : Message :=
  ToolMessage "error: tool execution was interrupted" tc.function.name tc.id ""

/-- `DefaultMemory.FormatMessages` (the `Normalize` operation of the spec):
* last message assistant with empty content or with tool calls → drop it;
* last message tool → walk back to the nearest assistant; if the number of its
  tool calls differs from the number of distinct answered ids, append a
  synthetic tool message for each unanswered tool call. -/
def formatMessages (msgs : List Message) : List Message :=
  match msgs.getLast? with
  | Option.none => msgs
  | Option.some last =>
    if last.role = Role.assistant then
      if last.content = "" ∨ last.toolCalls ≠ [] then msgs.dropLast else msgs
    else if last.role = Role.tool then
      if (scanBack msgs.reverse []).2.toolCalls.length ≠ (scanBack msgs.reverse []).1.length then
        msgs ++ ((scanBack msgs.reverse []).2.toolCalls.filter
          (fun tc => tc.id ∉ (scanBack msgs.reverse []).1)).map interruptedToolMessage
      else msgs
    else msgs

/-- The overflow scan of `DefaultMemory.AddMessage`: walk the full message
list, accumulating system messages; at a user message that is not the first
one seen, truncate to the accumulated system messages plus the remaining
suffix as soon as that fits within `maxMessages`. `none` means the scan found
no admissible truncation point. -/
def overflowScan (maxMessages : Int) : List Message → List Message → Bool → Option (List Message)
  | [], _, _ => Option.none
  | v :: rest, sysAcc, isDel =>
    if v.role = Role.system then
      overflowScan maxMessages rest (sysAcc ++ [v]) isDel
    else if v.role = Role.user then
      if isDel ∧ (sysAcc.length + (v :: rest).length : Int) ≤ maxMessages then
        Option.some (sysAcc ++ v :: rest)
      else overflowScan maxMessages rest sysAcc true
    else
      overflowScan maxMessages rest sysAcc isDel

/-- `DefaultMemory.AddMessage`: append the batch; if the result exceeds
`maxMessages`, run the turn-boundary overflow scan (the memory is left as the
full appended list when the scan finds no truncation point). -/
def addMessage (maxMessages : Int) (msgs newMsgs : List Message) : List Message :=
  if ((msgs ++ newMsgs).length : Int) ≤ maxMessages then msgs ++ newMsgs
  else (overflowScan maxMessages (msgs ++ newMsgs) [] false).getD (msgs ++ newMsgs)

/-- `DefaultMemory.GetRecentMessages`. -/
def getRecentMessages (n : Int) (msgs : List Message) : List Message :=
  if n ≤ 0 ∨ msgs = [] then []
  else if n > (msgs.length : Int) then msgs
  else msgs.drop (msgs.length - n.toNat)

end DefaultMemory

/-! ## schema.Memory (crow/internal/schema/agent.go) -/

namespace SchemaMemory

/-- `schema.NewMemory`, reduced to the normalization of its `maxMessages`
argument (identical to `NewDefaultMemory`). -/
def newMaxMessages (maxMessages : Int) : Int :=
  if maxMessages ≤ 5 then 20 else maxMessages

/-- The overflow scan of `schema.Memory.AddMessage`.  Note that the Go loop
ranges over the freshly added batch (`for i, msg := range messages`) while
truncating the full list at the batch-relative index (`m.Messages[i:]`); the
embedding keeps this behaviour: `ms` is the full appended list and the scan
walks the batch carrying the batch index `i`. -/
def overflowScan (maxMessages : Int) (ms : List Message) :
    List Message → Nat → List Message → Bool → Option (List Message)
  | [], _, _, _ => Option.none
  | v :: rest, i, sysAcc, isDel =>
    if v.role = Role.system then
      overflowScan maxMessages ms rest (i + 1) (sysAcc ++ [v]) isDel
    else if v.role = Role.user then
      if isDel ∧ (sysAcc.length + (ms.drop i).length : Int) ≤ maxMessages then
        Option.some (sysAcc ++ ms.drop i)
      else overflowScan maxMessages ms rest (i + 1) sysAcc true
    else
      overflowScan maxMessages ms rest (i + 1) sysAcc isDel

/-- `schema.Memory.AddMessage`. -/
def addMessage (maxMessages : Int) (msgs newMsgs : List Message) : List Message :=
  if ((msgs ++ newMsgs).length : Int) ≤ maxMessages then msgs ++ newMsgs
  else (overflowScan maxMessages (msgs ++ newMsgs) newMsgs 0 [] false).getD (msgs ++ newMsgs)

end SchemaMemory

/-! ## Agent act phase (crow/internal/agent/agent.go `Agent.act`) -/

/-- `maxObserve` truncation of a tool result (`result = result[:maxObserve]`
when `0 < maxObserve < len(result)`). -/
def observe (maxObserve : Int) (result : String) : String :=
  if 0 < maxObserve ∧ maxObserve < (result.length : Int) then
    result.take maxObserve.toNat
  else result

/-- Result of an act phase: the memory afterwards, the agent state and the
returned value or error. -/
structure ActResult where
  memory : List Message
  state : AgentState
  output : Except String String
  deriving Repr

namespace Agent

/-- The empty tool message the abort paths of `Agent.act` append for an
unexecuted tool call (`schema.ToolMessage("", toolCall.Function.Name,
toolCall.ID, "")`). -/
def emptyToolMsg (tc : ToolCall) : Message :=
  ToolMessage "" tc.function.name tc.id ""

/-- The tool message `Agent.act` appends for an executed tool call: the
(`maxObserve`-truncated) result of `reAct.ExecuteTool`. -/
def execToolMsg (exec : ToolCall → AgentState × String) (maxObserve : Int)
    (tc : ToolCall) : Message :=
  ToolMessage (observe maxObserve (exec tc).2) tc.function.name tc.id ""

/-- Loop body of `Agent.act` over the stashed tool calls.  `flags k` is the
value the `isAborted` flag has at its `k`-th atomic read (the read at the top
of the loop iteration for the `i`-th tool call is read `i + 1`; read `0` is
the check at the entry of `act`).  `exec` is `reAct.ExecuteTool`. -/
def actLoop (flags : Nat → Bool) (exec : ToolCall → AgentState × String)
    (maxObserve maxMem : Int) :
    List ToolCall → Nat → List Message → List String → AgentState → ActResult
  | [], _, mem, results, st =>
    ⟨mem, st, Except.ok (String.intercalate "\n\n" results)⟩
  | tc :: rest, k, mem, results, st =>
    if flags k then
      if rest = [] then
        ⟨SchemaMemory.addMessage maxMem mem [emptyToolMsg tc],
         AgentState.finished, Except.error "agent is aborted"⟩
      else
        actLoop flags exec maxObserve maxMem rest (k + 1)
          (SchemaMemory.addMessage maxMem mem [emptyToolMsg tc]) results st
    else
      if (exec tc).1 = AgentState.finished then
        ⟨SchemaMemory.addMessage maxMem mem [execToolMsg exec maxObserve tc],
         AgentState.finished, Except.ok ""⟩
      else
        actLoop flags exec maxObserve maxMem rest (k + 1)
          (SchemaMemory.addMessage maxMem mem [execToolMsg exec maxObserve tc])
          (results ++ [observe maxObserve (exec tc).2]) st

/-- The number of tool calls `Agent.act` executes before a loop-head read of
the abort flag returns true: the `k`-th list element performs read `k`. -/
def executedCountLoop (flags : Nat → Bool) : List ToolCall → Nat → Nat
  | [], _ => 0
  | _ :: rest, k =>
    if flags k then 0 else executedCountLoop flags rest (k + 1) + 1

/-- The number of tool calls `Agent.act` executes in total: `0` if the entry
read of the abort flag returns true, else the loop count starting at read 1. -/
def abortSplit (flags : Nat → Bool) (toolCalls : List ToolCall) : Nat :=
  if flags 0 then 0 else executedCountLoop flags toolCalls 1

/-- `Agent.act`: on an aborted entry every stashed tool call is answered by an
empty tool message; otherwise the empty-tool-call branches of the source are
taken, and the loop `actLoop` runs with the abort flag re-read each
iteration. -/
def act (flags : Nat → Bool) (exec : ToolCall → AgentState × String)
    (maxObserve maxMem : Int) (toolChoice : ToolChoice)
    (toolCalls : List ToolCall) (mem : List Message) (st : AgentState) : ActResult :=
  if flags 0 then
    ⟨toolCalls.foldl
      (fun acc tc => SchemaMemory.addMessage maxMem acc [emptyToolMsg tc]) mem,
     AgentState.finished, Except.error "agent is aborted"⟩
  else if toolCalls = [] then
    if toolChoice = ToolChoice.required then
      ⟨mem, st, Except.error "tool calls required but none provided"⟩
    else
      match mem.getLast? with
      | Option.some l =>
        if l.content ≠ "" then ⟨mem, st, Except.ok l.content⟩
        else ⟨mem, st, Except.ok "No content or commands to execute"⟩
      | Option.none => ⟨mem, st, Except.ok "No content or commands to execute"⟩
  else actLoop flags exec maxObserve maxMem toolCalls 1 mem [] st

end Agent

/-! ## ReAct agent (crow/internal/agent/llm, package react) -/

namespace ReactAgent

/-- Loop body of `ReActAgent.act` (the react tree): unlike `Agent.act`, no
interrupt flag is consulted; every stashed tool call is executed. -/
def actLoop (exec : ToolCall → AgentState × String) (maxObserve maxMem : Int) :
    List ToolCall → List Message → List String → AgentState → ActResult
  | [], mem, results, st =>
    ⟨mem, st, Except.ok (String.intercalate "\n\n" results)⟩
  | tc :: rest, mem, results, st =>
    let er := exec tc
    let result := observe maxObserve er.2
    let mem' := DefaultMemory.addMessage maxMem mem
      [ToolMessage result tc.function.name tc.id ""]
    if er.1 = AgentState.finished then ⟨mem', AgentState.finished, Except.ok ""⟩
    else actLoop exec maxObserve maxMem rest mem' (results ++ [result]) st

/-- `ReActAgent.act`: the act phase of the react tree.  The source function
contains no read of the `interrupt` flag. -/
def act (exec : ToolCall → AgentState × String) (maxObserve maxMem : Int)
    (toolChoice : ToolChoice) (toolCalls : List ToolCall)
    (mem : List Message) (st : AgentState) : ActResult :=
  if toolCalls = [] then
    if toolChoice = ToolChoice.required then
      ⟨mem, st, Except.error "tool calls required but none provided"⟩
    else
      match mem.getLast? with
      | Option.some l =>
        if l.content ≠ "" then ⟨mem, st, Except.ok l.content⟩
        else ⟨mem, st, Except.ok "No content or commands to execute"⟩
      | Option.none => ⟨mem, st, Except.ok "No content or commands to execute"⟩
  else actLoop exec maxObserve maxMem toolCalls mem [] st

/-- Callbacks a `Run` delivers to its `agent.Listener`
(`OnAgentResult(ctx, delta, StateProcessing)` per streamed delta, and
`OnAgentResult(ctx, "", StateCompleted)` from the deferred block). -/
inductive Cb where
  | processing (text : String)
  | completed
  deriving DecidableEq, Repr

/-- Environment of one `step` of `ReActAgent.Run`: the LLM deltas forwarded by
`recvLLMMessages`, each paired with the listener's return value; the step's
error, if any; and whether the step left the agent `FINISHED`. -/
structure StepSpec where
  deltas : List (String × Bool)
  err : Option String
  finished : Bool

/-- `recvLLMMessages`: deltas are forwarded in order; on the first delta for
which the listener returns `true` the reader stores `interrupt = 1` and stops
forwarding.  Returns the delivered callbacks and the interrupt flag. -/
def deliverDeltas : List (String × Bool) → List Cb × Bool
  | [] => ([], false)
  | (t, r) :: rest =>
    if r then ([Cb.processing t], true)
    else
      let d := deliverDeltas rest
      (Cb.processing t :: d.1, d.2)

/-- The step loop of `ReActAgent.Run` (`for currentStep < maxSteps && state ≠
FINISHED && interrupt ≠ 1`): returns the delivered callbacks, the interrupt
flag, and the error `Run` returns.  The fuel is `maxSteps - currentStep`. -/
def runLoop (steps : Nat → StepSpec) : Nat → Nat → List Cb × Bool × Option String
  | 0, _ => ([], false, Option.none)
  | fuel + 1, idx =>
    let sp := steps idx
    let d := deliverDeltas sp.deltas
    match sp.err with
    | Option.some e => (d.1, d.2, Option.some e)
    | Option.none =>
      if sp.finished ∨ d.2 then (d.1, d.2, Option.none)
      else
        let r := runLoop steps fuel (idx + 1)
        (d.1 ++ r.1, r.2.1, r.2.2)

/-- `ReActAgent.Run`, reduced to its listener-visible behaviour: an empty
prompt is rejected before the deferred block is installed (no callback); any
other exit — step error, `FINISHED`, max steps, interrupt — goes through the
deferred block, which emits `OnAgentResult(ctx, "", StateCompleted)` exactly
when the interrupt flag is still 0. -/
def run (maxSteps : Nat) (steps : Nat → StepSpec) (prompt : String) :
    List Cb × Option String :=
  if prompt = "" then ([], Option.some "user prompt is empty")
  else
    let r := runLoop steps maxSteps 0
    (r.1 ++ (if r.2.1 then [] else [Cb.completed]), r.2.2)

/-- The interrupt flag at the end of a `Run`: set exactly when the listener
returned `true` for some delivered delta of this run. -/
def interrupted (maxSteps : Nat) (steps : Nat → StepSpec) : Bool :=
  (runLoop steps maxSteps 0).2.1

/-- `ReActAgent.Run` memory preamble (lines `r.memory.FormatMessages()` then
`r.memory.AddMessage(schema.UserMessage(userPrompt, ""))`): the repair runs
before the new user message is added. -/
def runPreamble (maxMem : Int) (mem : List Message) (prompt : String) : List Message :=
  DefaultMemory.addMessage maxMem (DefaultMemory.formatMessages mem) [UserMessage prompt ""]

end ReactAgent

/-! ## Paraformer ASR provider (crow/internal/asr/paraformer) -/

namespace Paraformer

/-- ASR recognition states (`asr.State`). -/
inductive AsrState where
  | processing
  | sentenceEnd
  | completed
  deriving DecidableEq, Repr

/-- `asr.Config` (the fields `Paraformer.SetConfig` reads or writes). -/
structure Config where
  apiKey : String
  language : String
  accent : String
  sampleRate : Int
  format : String
  enablePunc : Bool
  vadEos : Int
  deriving DecidableEq, Repr

/-- `Paraformer.SetConfig`: defaults for empty language/format, non-positive
sample rate, and a `vadEos` outside `[200, 6000]` is replaced by the default
800. -/
def setConfig (cfg : Config) : Config :=
  { cfg with
    language := if cfg.language = "" then "zh" else cfg.language
    sampleRate := if cfg.sampleRate ≤ 0 then 16000 else cfg.sampleRate
    format := if cfg.format = "" then "pcm" else cfg.format
    vadEos := if cfg.vadEos < 200 ∨ 6000 < cfg.vadEos then 800 else cfg.vadEos }

/-- The spec's wording for the `vad_eos` boundary behaviour, for comparison
with `setConfig`: the value clamped into `[200, 6000]`. -/
def specClampVadEos (v : Int) : Int :=
  max 200 (min 6000 v)

/-- The part of a backend event `Paraformer.handleEvent` inspects. -/
structure AsrEvent where
  event : String
  errorMessage : String
  text : String
  sentenceEnd : Bool
  deriving DecidableEq, Repr

/-- One item produced by `conn.ReadMessage` in `Paraformer.readMessage`: a
read error, a frame that fails to unmarshal, or a parsed event. -/
inductive ReadItem where
  | readErr
  | badJson
  | ev (e : AsrEvent)
  deriving Repr

/-- `Paraformer.handleEvent`, reduced to its listener-visible behaviour:
the callbacks `OnAsrResult(text, state)` it delivers and whether the read
loop stops.  (The wall-clock silence counting of the `result-generated`
branch touches no callback and is omitted.)  `listener` gives the return
value of `OnAsrResult`. -/
def handleEvent (listener : String → AsrState → Bool) (e : AsrEvent) :
    List (String × AsrState) × Bool :=
  if e.event = "result-generated" then
    let st := if e.sentenceEnd then AsrState.sentenceEnd else AsrState.processing
    ([(e.text, st)], listener e.text st)
  else if e.event = "task-finished" then
    ([("", AsrState.completed)], true)
  else if e.event = "task-failed" then
    ([("", AsrState.completed)], true)
  else ([], false)

/-- The read loop of `Paraformer.readMessage` over the sequence of incoming
read results: a read error calls `setErrorAndClose` and exits the loop
without delivering any callback; a frame that fails to unmarshal is skipped;
events are handed to `handleEvent`.  Returns every callback delivered to the
listener. -/
def readLoop (listener : String → AsrState → Bool) : List ReadItem → List (String × AsrState)
  | [] => []
  | ReadItem.readErr :: _ => []
  | ReadItem.badJson :: rest => readLoop listener rest
  | ReadItem.ev e :: rest =>
    let h := handleEvent listener e
    if h.2 then h.1 else h.1 ++ readLoop listener rest

end Paraformer

/-! ## Session handler, websocket tree (crow/internal/handler, src/unnamed/part_012) -/

namespace Handler

/-- The session-handler fields `handleAbortChat` / `handleChatMessage`
read or write.  The agent, TTS and ASR provider states are abstract
(`α`, `β`, `γ`); the conversation memory is owned by the agent provider but
tracked as its own field to state frame conditions. -/
structure HState (α β γ : Type) where
  interrupt : Bool
  agent : α
  tts : β
  asr : γ
  memory : List Message
  chatRound : Nat
  closeAfterChat : Bool
  stopRecv : Bool

/-- `Handler.handleAbortChat`: set the interrupt flag, reset the agent
provider and the TTS provider (`resetA`, `resetT` are the providers'
`Reset`). -/
def handleAbortChat {α β γ : Type} (resetA : α → α) (resetT : β → β)
    (s : HState α β γ) : HState α β γ :=
  { s with interrupt := true, agent := resetA s.agent, tts := resetT s.tts }

/-- `Handler.handleChatMessage`: empty text aborts the chat and returns;
otherwise the chat round is incremented, an exit phrase sets
`closeAfterChat`/`stopRecv`, the interrupt flag is cleared if set, and the
agent is run with the text (returned as the second component; `none` means no
run was spawned). -/
def handleChatMessage {α β γ : Type} (resetA : α → α) (resetT : β → β)
    (isExit : String → Bool) (text : String) (s : HState α β γ) :
    HState α β γ × Option String :=
  if text = "" then (handleAbortChat resetA resetT s, Option.none)
  else
    let s1 := { s with chatRound := s.chatRound + 1 }
    let s2 := if isExit text then { s1 with closeAfterChat := true, stopRecv := true } else s1
    let s3 := if s2.interrupt then { s2 with interrupt := false } else s2
    (s3, Option.some text)

/-- A parsed client text frame (`model.ClientTextMessage`, by its `type`). -/
inductive ClientTextMsg where
  | abort
  | chat (chatText : String)
  | other (t : String)

/-- `Handler.handleClientTextMessages` dispatch: `abort` frames abort the
chat; `chat` frames first abort the current chat, then run
`handleChatMessage` on `chat_text`. -/
def handleClientTextMessages {α β γ : Type} (resetA : α → α) (resetT : β → β)
    (isExit : String → Bool) (m : ClientTextMsg) (s : HState α β γ) :
    HState α β γ × Option String :=
  match m with
  | ClientTextMsg.abort => (handleAbortChat resetA resetT s, Option.none)
  | ClientTextMsg.chat text =>
    handleChatMessage resetA resetT isExit text (handleAbortChat resetA resetT s)
  | ClientTextMsg.other _ => (s, Option.none)

end Handler

/-! ## Session handler, router tree (crow/internal/router/handler) -/

namespace RouterHandler

/-- The fields of the router-tree `Handler` its `clientAbortChat` and the
guard of its `handleChatMessage` touch. -/
structure RState (α : Type) where
  serverStopSend : Bool
  serverStopRecv : Bool
  agent : α
  chatRound : Nat
  closeAfterChat : Bool

/-- `Handler.clientAbortChat` (router tree): stop server sends, abort the
agent (`abortAgent` is `Agent.Abort`), resume client receives. -/
def clientAbortChat {α : Type} (abortAgent : α → α) (s : RState α) : RState α :=
  { s with serverStopSend := true, agent := abortAgent s.agent, serverStopRecv := false }

/-- `Handler.handleChatMessage` (router tree), up to the synchronous
`agent.Run` call: empty text aborts the chat and returns an error without
touching the chat round; otherwise client receives stop, the round is
incremented and the agent is run with the text (second component; the
post-run bookkeeping of the source is behind the run and not modelled). -/
def handleChatMessage {α : Type} (abortAgent : α → α) (text : String)
    (s : RState α) : RState α × Option String :=
  if text = "" then (clientAbortChat abortAgent s, Option.none)
  else
    let s1 := { s with serverStopRecv := true }
    let s2 := { s1 with chatRound := s1.chatRound + 1 }
    (s2, Option.some text)

end RouterHandler

/-! ## Concrete instances and counters used by the claim theorems -/

/-- Number of `Completed` callbacks in a callback list. -/
def completedCount : List ReactAgent.Cb → Nat
  | [] => 0
  | ReactAgent.Cb.completed :: rest => completedCount rest + 1
  | ReactAgent.Cb.processing _ :: rest => completedCount rest

/-- An ASR config with `vad_eos = 7000`, above the documented range. -/
def c8cfg : Paraformer.Config :=
  ⟨"", "zh", "mandarin", 16000, "pcm", false, 7000⟩

/-- A concrete handler state for the C6 witness. -/
def c6s : Handler.HState Bool Bool Bool :=
  ⟨false, false, false, false, [], 3, false, false⟩

/-- A tool call with id `"a"` for the C1 instances. -/
def c1tc : ToolCall := ⟨"a", "function", ⟨"f", "{}"⟩⟩

/-- A memory whose trailing tool message answers an id (`"b"`) that is not
among the nearest assistant's tool calls (`["a"]`): one id each, so the
count guard of `FormatMessages` sees equal lengths and repairs nothing. -/
def c1mem : List Message :=
  [FromToolCalls [c1tc] "" "", ToolMessage "r" "f" "b" ""]

/-- A second tool call, with id `"b"`, for the C1 witness. -/
def c1wtc : ToolCall := ⟨"b", "function", ⟨"g", "{}"⟩⟩

/-- A memory whose trailing tool message answers only the first of the two
tool calls of the nearest assistant. -/
def c1wmem : List Message :=
  [FromToolCalls [c1tc, c1wtc] "" "", ToolMessage "r" "f" "a" ""]

/-- A step environment for the C2 witness: one delta the listener accepts,
then the step finishes. -/
def c2steps : Nat → ReactAgent.StepSpec :=
  fun _ => ⟨[("hi", false)], Option.none, true⟩

/-- A tool executor returning a running state and the result `"R"` for every
call. -/
def c3exec : ToolCall → AgentState × String := fun _ => (AgentState.running, "R")

/-- A tool call with id `"a"` for the C3 instances. -/
def c3tc : ToolCall := ⟨"a", "function", ⟨"f", "{}"⟩⟩

/-- A second tool call, with id `"b"`, for the C3 witness. -/
def c3wtc : ToolCall := ⟨"b", "function", ⟨"g", "{}"⟩⟩

/-! ## Claim C10 -/

/-- Claim C10 (confirmed): both memory constructors replace a `maxMessages`
argument ≤ 5 by 20 and keep any larger argument, so the effective maximum of
a constructed memory is never 5 or less. -/
theorem c10_constructor_normalization (n : Int) :
    DefaultMemory.newMaxMessages n = (if n ≤ 5 then 20 else n) ∧
    5 < DefaultMemory.newMaxMessages n ∧
    SchemaMemory.newMaxMessages n = DefaultMemory.newMaxMessages n := by
  refine ⟨rfl, ?_, rfl⟩
  unfold DefaultMemory.newMaxMessages
  split <;> omega

/-! ## Claim C8 -/

/-- Claim C8 (counterexample): at `vad_eos = 7000` the claim predicts the
clamped value 6000, but `Paraformer.SetConfig` returns the default 800. -/
theorem c8_counterexample :
    (Paraformer.setConfig c8cfg).vadEos = 800 ∧
    Paraformer.specClampVadEos c8cfg.vadEos = 6000 ∧
    (Paraformer.setConfig c8cfg).vadEos ≠ Paraformer.specClampVadEos c8cfg.vadEos := by
  refine ⟨rfl, rfl, by decide⟩

/-- Claim C8 (amended): `vad_eos` values inside `[200, 6000]` pass through
`Paraformer.SetConfig` unchanged; values outside the range are replaced by
the default 800 (not clamped to the nearest bound), so the effective value
always lies in `[200, 6000]`. -/
theorem c8_vadeos_normalization (cfg : Paraformer.Config) :
    (200 ≤ cfg.vadEos → cfg.vadEos ≤ 6000 → (Paraformer.setConfig cfg).vadEos = cfg.vadEos) ∧
    (cfg.vadEos < 200 ∨ 6000 < cfg.vadEos → (Paraformer.setConfig cfg).vadEos = 800) ∧
    200 ≤ (Paraformer.setConfig cfg).vadEos ∧ (Paraformer.setConfig cfg).vadEos ≤ 6000 := by
  have h : (Paraformer.setConfig cfg).vadEos =
      if cfg.vadEos < 200 ∨ 6000 < cfg.vadEos then 800 else cfg.vadEos := rfl
  rw [h]
  refine ⟨?_, ?_, ?_, ?_⟩
  · intro h1 h2
    rw [if_neg (by omega)]
  · intro h1
    rw [if_pos h1]
  · split <;> omega
  · split <;> omega

/-- Claim C8 (witness): the amended theorem at an in-range input. -/
theorem c8_witness :
    (Paraformer.setConfig ⟨"", "zh", "mandarin", 16000, "pcm", false, 500⟩).vadEos = 500 ∧
    200 ≤ (Paraformer.setConfig ⟨"", "zh", "mandarin", 16000, "pcm", false, 500⟩).vadEos :=
  ⟨(c8_vadeos_normalization _).1 (by decide) (by decide),
   (c8_vadeos_normalization _).2.2.1⟩

/-! ## Claim C5 -/

/-- Claim C5 (counterexample): a trailing assistant message with empty
content and NO tool calls is removed by `FormatMessages`, although the claim
says removal happens only when tool calls are present. -/
theorem c5_counterexample :
    DefaultMemory.formatMessages [AssistantMessage "" ""] = [] ∧
    (AssistantMessage "" "").toolCalls = [] :=
  ⟨rfl, rfl⟩

/-- Claim C5 (amended): `FormatMessages` removes the last message if and only
if it is an assistant message whose content is empty OR whose tool-call list
is non-empty; an assistant message with non-empty content and no tool calls,
and any non-assistant last message, is never removed (for a trailing tool
message the list is only ever extended). -/
theorem c5_removal_rule (msgs : List Message) (last : Message)
    (h : msgs.getLast? = Option.some last) :
    (last.role = Role.assistant →
      DefaultMemory.formatMessages msgs =
        if last.content = "" ∨ last.toolCalls ≠ [] then msgs.dropLast else msgs) ∧
    (last.role ≠ Role.assistant →
      ∃ tail, DefaultMemory.formatMessages msgs = msgs ++ tail) := by
  constructor
  · intro ha
    unfold DefaultMemory.formatMessages
    rw [h]
    simp only [ha, if_pos]
  · intro ha
    unfold DefaultMemory.formatMessages
    rw [h]
    simp only [if_neg ha]
    by_cases ht : last.role = Role.tool
    · simp only [ht, if_pos]
      split
      · exact ⟨_, rfl⟩
      · exact ⟨[], by simp⟩
    · simp only [if_neg ht]
      exact ⟨[], by simp⟩

/-- Claim C5 (witness): the amended theorem keeps an assistant message with
non-empty content and no tool calls in place. -/
theorem c5_witness :
    DefaultMemory.formatMessages [AssistantMessage "hi" ""] = [AssistantMessage "hi" ""] := by
  have h := (c5_removal_rule [AssistantMessage "hi" ""] (AssistantMessage "hi" "") rfl).1 rfl
  exact h.trans (if_neg (by decide))

/-! ## Claim C7 -/

/-- Claim C7 (code_bug evidence): a transport read error makes
`Paraformer.readMessage` exit through `setErrorAndClose` without delivering
any callback — in particular no `Completed` — while a backend-reported
`task-failed` event does deliver the synthetic `Completed` exactly once.
The spec (and the sibling Doubao provider, which synthesizes `Completed` in a
deferred block) requires `Completed` exactly once in both cases so the
orchestrator never stalls. -/
theorem c7_read_error_loses_completed :
    Paraformer.readLoop (fun _ _ => false) [Paraformer.ReadItem.readErr] = [] ∧
    Paraformer.readLoop (fun _ _ => false)
        [Paraformer.ReadItem.ev ⟨"task-failed", "boom", "", false⟩] =
      [("", Paraformer.AsrState.completed)] :=
  ⟨rfl, rfl⟩

/-! ## Claim C9 -/

/-- Claim C9 (confirmed): in both handler trees, a chat frame with empty
`chat_text` only aborts the current chat (set interrupt / stop sends, reset
or abort providers) and returns without starting a new round: the chat round
counter is unchanged and no agent run is spawned (`none`). -/
theorem c9_empty_chat_text {α β γ δ : Type} (resetA : α → α) (resetT : β → β)
    (isExit : String → Bool) (s : Handler.HState α β γ)
    (abortAgent : δ → δ) (r : RouterHandler.RState δ) :
    Handler.handleClientTextMessages resetA resetT isExit
        (Handler.ClientTextMsg.chat "") s =
      (Handler.handleAbortChat resetA resetT (Handler.handleAbortChat resetA resetT s),
       Option.none) ∧
    (Handler.handleAbortChat resetA resetT
      (Handler.handleAbortChat resetA resetT s)).chatRound = s.chatRound ∧
    RouterHandler.handleChatMessage abortAgent "" r =
      (RouterHandler.clientAbortChat abortAgent r, Option.none) ∧
    (RouterHandler.clientAbortChat abortAgent r).chatRound = r.chatRound := by
  refine ⟨?_, rfl, ?_, rfl⟩
  · simp [Handler.handleClientTextMessages, Handler.handleChatMessage]
  · simp [RouterHandler.handleChatMessage]

/-! ## Claim C4 -/

/-- Whenever the overflow scan of `DefaultMemory.AddMessage` truncates, the
guard of the truncation bounds the result by `maxMessages`. -/
theorem overflowScan_length_le {maxMem : Int} :
    ∀ (l sysAcc : List Message) (isDel : Bool) (r : List Message),
      DefaultMemory.overflowScan maxMem l sysAcc isDel = Option.some r →
      (r.length : Int) ≤ maxMem := by
  intro l
  induction l with
  | nil =>
    intro sysAcc isDel r h
    simp [DefaultMemory.overflowScan] at h
  | cons v rest ih =>
    intro sysAcc isDel r h
    unfold DefaultMemory.overflowScan at h
    split_ifs at h with h1 h2 h3
    · exact ih _ _ _ h
    · obtain ⟨hd, hlen⟩ := h3
      obtain rfl : sysAcc ++ v :: rest = r := by
        simpa using h
      simpa [List.length_append] using hlen
    · exact ih _ _ _ h
    · exact ih _ _ _ h

/-- Claim C4 (counterexample): a batch of 7 assistant messages added to an
empty memory of maximum 6 (constructed from the argument 6) leaves 7 messages
stored: the turn-boundary overflow scan finds no user message to truncate at,
so the bound is violated. -/
theorem c4_counterexample :
    (DefaultMemory.addMessage (DefaultMemory.newMaxMessages 6) []
        (List.replicate 7 (AssistantMessage "x" ""))).length = 7 ∧
    ¬ ((7 : Int) ≤ DefaultMemory.newMaxMessages 6) := by
  refine ⟨rfl, by decide⟩

/-- Claim C4 (amended): after every `AddMessage`, either the number of stored
messages is at most the configured maximum, or the overflow scan found no
admissible turn boundary (no non-first user message whose suffix together
with the preceding system messages fits) and the memory is exactly the
previous messages followed by the batch — which can exceed the maximum, e.g.
for a single turn longer than the maximum. -/
theorem c4_addMessage_bound (maxMem : Int) (msgs newMsgs : List Message) :
    ((DefaultMemory.addMessage maxMem msgs newMsgs).length : Int) ≤ maxMem ∨
    DefaultMemory.addMessage maxMem msgs newMsgs = msgs ++ newMsgs := by
  unfold DefaultMemory.addMessage
  by_cases h : ((msgs ++ newMsgs).length : Int) ≤ maxMem
  · simp only [if_pos h]
    exact Or.inl h
  · simp only [if_neg h]
    cases hscan : DefaultMemory.overflowScan maxMem (msgs ++ newMsgs) [] false with
    | none => exact Or.inr (by simp [hscan])
    | some r =>
      exact Or.inl (by simpa [hscan] using overflowScan_length_le _ _ _ _ hscan)

/-! ## Claim C6 -/

/-- Claim C6 (confirmed): `handleAbortChat` sets the interrupt flag and
resets the agent and TTS providers while leaving the ASR provider state, the
conversation memory, the chat round, `closeAfterChat` and `stopRecv`
untouched; the interrupt flag is cleared (only) when the next
`handleChatMessage` starts a new chat round with non-empty text. -/
theorem c6_abort_frame {α β γ : Type} (resetA : α → α) (resetT : β → β)
    (isExit : String → Bool) (s : Handler.HState α β γ)
    (text : String) (h : text ≠ "") :
    (Handler.handleAbortChat resetA resetT s).interrupt = true ∧
    (Handler.handleAbortChat resetA resetT s).agent = resetA s.agent ∧
    (Handler.handleAbortChat resetA resetT s).tts = resetT s.tts ∧
    (Handler.handleAbortChat resetA resetT s).asr = s.asr ∧
    (Handler.handleAbortChat resetA resetT s).memory = s.memory ∧
    (Handler.handleAbortChat resetA resetT s).chatRound = s.chatRound ∧
    (Handler.handleAbortChat resetA resetT s).closeAfterChat = s.closeAfterChat ∧
    (Handler.handleAbortChat resetA resetT s).stopRecv = s.stopRecv ∧
    (Handler.handleChatMessage resetA resetT isExit text s).1.interrupt = false ∧
    (Handler.handleChatMessage resetA resetT isExit text s).1.chatRound = s.chatRound + 1 := by
  refine ⟨rfl, rfl, rfl, rfl, rfl, rfl, rfl, rfl, ?_, ?_⟩
  · simp only [Handler.handleChatMessage, if_neg h]
    split_ifs <;> simp_all
  · simp only [Handler.handleChatMessage, if_neg h]
    split_ifs <;> rfl

/-- Claim C6 (witness): the frame conditions at a concrete state and a
concrete non-empty chat text. -/
theorem c6_witness :
    (Handler.handleAbortChat not not c6s).interrupt = true ∧
    (Handler.handleAbortChat not not c6s).memory = c6s.memory ∧
    (Handler.handleChatMessage not not (fun _ => false) "hi" c6s).1.interrupt = false :=
  ⟨(c6_abort_frame not not (fun _ => false) c6s "hi" (by decide)).1,
   (c6_abort_frame not not (fun _ => false) c6s "hi" (by decide)).2.2.2.2.1,
   (c6_abort_frame not not (fun _ => false) c6s "hi" (by decide)).2.2.2.2.2.2.2.2.1⟩

/-! ## Claim C1 -/

/-- Claim C1 (counterexample): in `c1mem` the last message is a tool message
and the tool call id `"a"` of the nearest assistant is not matched by any
tool message below it, yet `FormatMessages` appends nothing: the repair is
guarded by a count comparison (`len(assistant.ToolCalls) != len(set of
answered ids)`), which equal counts with mismatched ids defeat. -/
theorem c1_counterexample :
    DefaultMemory.formatMessages c1mem = c1mem ∧
    c1mem.getLast?.map Message.role = Option.some Role.tool ∧
    "a" ∉ (DefaultMemory.scanBack c1mem.reverse []).1 ∧
    DefaultMemory.interruptedToolMessage c1tc ∉ DefaultMemory.formatMessages c1mem := by
  refine ⟨rfl, rfl, by decide, by decide⟩

/-- Claim C1 (amended): when the last message is a tool message AND the
nearest assistant's tool-call count differs from the number of distinct
answered ids below it, `Run` first appends one synthetic
`"error: tool execution was interrupted"` tool message per unanswered tool
call and only then adds the new user prompt (shown here for a memory small
enough that adding the user message does not overflow). -/
theorem c1_repair_before_user_prompt (maxMem : Int) (mem : List Message)
    (p : String) (last : Message)
    (hlast : mem.getLast? = Option.some last) (hrole : last.role = Role.tool)
    (hdiff : (DefaultMemory.scanBack mem.reverse []).2.toolCalls.length ≠
      (DefaultMemory.scanBack mem.reverse []).1.length)
    (hfit : ((DefaultMemory.formatMessages mem).length + 1 : Int) ≤ maxMem) :
    ReactAgent.runPreamble maxMem mem p =
      mem ++ ((DefaultMemory.scanBack mem.reverse []).2.toolCalls.filter
          (fun tc => tc.id ∉ (DefaultMemory.scanBack mem.reverse []).1)).map
          DefaultMemory.interruptedToolMessage
        ++ [UserMessage p ""] := by
  have hna : ¬ last.role = Role.assistant := by
    rw [hrole]
    intro hc
    cases hc
  have hfm : DefaultMemory.formatMessages mem =
      mem ++ ((DefaultMemory.scanBack mem.reverse []).2.toolCalls.filter
        (fun tc => tc.id ∉ (DefaultMemory.scanBack mem.reverse []).1)).map
        DefaultMemory.interruptedToolMessage := by
    unfold DefaultMemory.formatMessages
    rw [hlast]
    simp only [if_neg hna, if_pos hrole, if_pos hdiff]
  have hadd : DefaultMemory.addMessage maxMem (DefaultMemory.formatMessages mem)
      [UserMessage p ""] = DefaultMemory.formatMessages mem ++ [UserMessage p ""] := by
    unfold DefaultMemory.addMessage
    rw [if_pos]
    rw [List.length_append]
    push_cast
    simpa using hfit
  unfold ReactAgent.runPreamble
  rw [hadd, hfm, List.append_assoc]

/-- Claim C1 (witness): on `c1wmem` the run preamble appends the synthetic
tool message for the unanswered call `"b"` and then the new user prompt. -/
theorem c1_witness :
    ReactAgent.runPreamble 20 c1wmem "hi" =
      c1wmem ++ [DefaultMemory.interruptedToolMessage c1wtc] ++ [UserMessage "hi" ""] := by
  have h := c1_repair_before_user_prompt 20 c1wmem "hi" (ToolMessage "r" "f" "a" "")
    rfl rfl (by decide) (by decide)
  exact h.trans (by decide)

/-! ## Claim C2 -/

theorem completedCount_append (a b : List ReactAgent.Cb) :
    completedCount (a ++ b) = completedCount a + completedCount b := by
  induction a with
  | nil => simp [completedCount]
  | cons c rest ih =>
    cases c with
    | processing t => simpa [completedCount] using ih
    | completed => simp [completedCount, ih]; omega

/-- `recvLLMMessages` only forwards `Processing` deltas. -/
theorem completedCount_deliverDeltas (l : List (String × Bool)) :
    completedCount (ReactAgent.deliverDeltas l).1 = 0 := by
  induction l with
  | nil => rfl
  | cons d rest ih =>
    obtain ⟨t, r⟩ := d
    by_cases hr : r
    · simp [ReactAgent.deliverDeltas, hr, completedCount]
    · simpa [ReactAgent.deliverDeltas, hr, completedCount] using ih

/-- The step loop of `Run` never emits a `Completed` callback itself. -/
theorem completedCount_runLoop (steps : Nat → ReactAgent.StepSpec) :
    ∀ (fuel idx : Nat), completedCount (ReactAgent.runLoop steps fuel idx).1 = 0 := by
  intro fuel
  induction fuel with
  | zero => intro idx; rfl
  | succ n ih =>
    intro idx
    unfold ReactAgent.runLoop
    cases herr : (steps idx).err with
    | some e =>
      simp only [herr]
      simpa using completedCount_deliverDeltas (steps idx).deltas
    | none =>
      simp only [herr]
      by_cases hstop : (steps idx).finished = true ∨
        (ReactAgent.deliverDeltas (steps idx).deltas).2 = true
      · simp only [if_pos hstop]
        simpa using completedCount_deliverDeltas (steps idx).deltas
      · simp only [if_neg hstop, completedCount_append]
        rw [completedCount_deliverDeltas, ih (idx + 1)]

/-- Claim C2 (confirmed): for every `Run` with a non-empty prompt — whatever
the per-step LLM deltas, listener answers, step errors and finishes — the
listener receives the `Completed` callback exactly once, except when the
interrupt flag was set because the listener returned `true` for a delivered
delta of this run, in which case it receives none. -/
theorem c2_completed_exactly_once (maxSteps : Nat) (steps : Nat → ReactAgent.StepSpec)
    (prompt : String) (h : prompt ≠ "") :
    completedCount (ReactAgent.run maxSteps steps prompt).1 =
      (if ReactAgent.interrupted maxSteps steps then 0 else 1) := by
  unfold ReactAgent.run ReactAgent.interrupted
  rw [if_neg h]
  simp only [completedCount_append, completedCount_runLoop]
  by_cases hint : (ReactAgent.runLoop steps maxSteps 0).2.1
  · simp [hint, completedCount]
  · simp [hint, completedCount]

/-- Claim C2 (witness): the count at a concrete non-empty prompt and concrete
step environment. -/
theorem c2_witness :
    ("hello" : String) ≠ "" ∧
    completedCount (ReactAgent.run 3 c2steps "hello").1 =
      (if ReactAgent.interrupted 3 c2steps then 0 else 1) :=
  ⟨by decide, c2_completed_exactly_once 3 c2steps "hello" (by decide)⟩

/-! ## Claim C3 -/

/-- Adding a single tool message to a `schema.Memory` is a plain append: the
overflow scan ranges over the added batch and a tool message is neither a
system nor a user message, so no truncation point is ever found. -/
theorem schema_addMessage_tool_single (maxMem : Int) (mem : List Message)
    (msg : Message) (h : msg.role = Role.tool) :
    SchemaMemory.addMessage maxMem mem [msg] = mem ++ [msg] := by
  unfold SchemaMemory.addMessage
  by_cases hlen : ((mem ++ [msg]).length : Int) ≤ maxMem
  · rw [if_pos hlen]
  · rw [if_neg hlen]
    have hs : ¬ msg.role = Role.system := by rw [h]; intro hc; cases hc
    have hu : ¬ msg.role = Role.user := by rw [h]; intro hc; cases hc
    simp [SchemaMemory.overflowScan, hs, hu]

/-- The entry-abort branch of `Agent.act` answers every stashed tool call
with an empty tool message. -/
theorem agent_foldl_emptyToolMsg (maxMem : Int) :
    ∀ (tcs : List ToolCall) (mem : List Message),
      tcs.foldl (fun acc tc => SchemaMemory.addMessage maxMem acc
        [Agent.emptyToolMsg tc]) mem = mem ++ tcs.map Agent.emptyToolMsg := by
  intro tcs
  induction tcs with
  | nil => intro mem; simp
  | cons tc rest ih =>
    intro mem
    rw [List.foldl_cons, ih,
      schema_addMessage_tool_single maxMem mem (Agent.emptyToolMsg tc) rfl]
    simp

/-- Once the abort flag reads true, every remaining tool call is answered by
an empty tool message (`flags` is monotone: the flag is never cleared during
a run). -/
theorem agent_actLoop_all_aborted (flags : Nat → Bool)
    (exec : ToolCall → AgentState × String) (maxObserve maxMem : Int)
    (hmono : ∀ j, flags j = true → flags (j + 1) = true) :
    ∀ (tcs : List ToolCall) (k : Nat) (mem : List Message)
      (results : List String) (st : AgentState), flags k = true →
      (Agent.actLoop flags exec maxObserve maxMem tcs k mem results st).memory =
        mem ++ tcs.map Agent.emptyToolMsg := by
  intro tcs
  induction tcs with
  | nil => intro k mem results st _; simp [Agent.actLoop]
  | cons tc rest ih =>
    intro k mem results st hk
    unfold Agent.actLoop
    rw [if_pos hk]
    by_cases hr : rest = []
    · subst hr
      simp [schema_addMessage_tool_single maxMem mem (Agent.emptyToolMsg tc) rfl]
    · rw [if_neg hr, ih (k + 1) _ results st (hmono k hk),
        schema_addMessage_tool_single maxMem mem (Agent.emptyToolMsg tc) rfl]
      simp

/-- Memory shape of the act loop: provided no executed tool reports
`FINISHED`, the executed prefix is answered by real tool messages and the
rest by empty tool messages, split at `executedCountLoop`. -/
theorem agent_actLoop_memory (flags : Nat → Bool)
    (exec : ToolCall → AgentState × String) (maxObserve maxMem : Int)
    (hmono : ∀ j, flags j = true → flags (j + 1) = true) :
    ∀ (tcs : List ToolCall) (k : Nat) (mem : List Message)
      (results : List String) (st : AgentState),
      (∀ tc ∈ tcs, (exec tc).1 ≠ AgentState.finished) →
      (Agent.actLoop flags exec maxObserve maxMem tcs k mem results st).memory =
        mem ++ (tcs.take (Agent.executedCountLoop flags tcs k)).map
            (Agent.execToolMsg exec maxObserve)
          ++ (tcs.drop (Agent.executedCountLoop flags tcs k)).map Agent.emptyToolMsg := by
  intro tcs
  induction tcs with
  | nil => intro k mem results st _; simp [Agent.actLoop, Agent.executedCountLoop]
  | cons tc rest ih =>
    intro k mem results st hnofin
    by_cases hk : flags k = true
    · have hcount : Agent.executedCountLoop flags (tc :: rest) k = 0 := by
        simp [Agent.executedCountLoop, hk]
      rw [hcount, agent_actLoop_all_aborted flags exec maxObserve maxMem hmono
        (tc :: rest) k mem results st hk]
      simp
    · have hk' : flags k = false := by simpa using hk
      have hcount : Agent.executedCountLoop flags (tc :: rest) k =
          Agent.executedCountLoop flags rest (k + 1) + 1 := by
        simp [Agent.executedCountLoop, hk']
      have hfin : ¬ (exec tc).1 = AgentState.finished :=
        hnofin tc (List.mem_cons_self tc rest)
      unfold Agent.actLoop
      rw [if_neg (by simp [hk']), if_neg hfin,
        ih (k + 1) _ (results ++ [observe maxObserve (exec tc).2]) st
          (fun tc2 h2 => hnofin tc2 (List.mem_cons_of_mem tc h2)),
        schema_addMessage_tool_single maxMem mem (Agent.execToolMsg exec maxObserve tc) rfl,
        hcount]
      simp

/-- The number of executed tool calls never exceeds the number stashed. -/
theorem agent_executedCountLoop_le (flags : Nat → Bool) :
    ∀ (tcs : List ToolCall) (k : Nat),
      Agent.executedCountLoop flags tcs k ≤ tcs.length := by
  intro tcs
  induction tcs with
  | nil => intro k; simp [Agent.executedCountLoop]
  | cons tc rest ih =>
    intro k
    unfold Agent.executedCountLoop
    split
    · simp
    · have := ih (k + 1)
      simpa using Nat.succ_le_succ this

/-- If the abort flag is set by the last loop-head read, at least one tool
call is left unexecuted. -/
theorem agent_executedCountLoop_lt (flags : Nat → Bool) :
    ∀ (tcs : List ToolCall) (k : Nat), tcs ≠ [] →
      flags (k + tcs.length - 1) = true →
      Agent.executedCountLoop flags tcs k < tcs.length := by
  intro tcs
  induction tcs with
  | nil => intro k h; exact absurd rfl h
  | cons tc rest ih =>
    intro k _ hset
    by_cases hk : flags k = true
    · simp [Agent.executedCountLoop, hk]
    · have hk' : flags k = false := by simpa using hk
      by_cases hr : rest = []
      · subst hr
        simp only [List.length_cons, List.length_nil] at hset
        rw [Nat.add_sub_cancel] at hset
        rw [hset] at hk'
        cases hk'
      · have hset' : flags (k + 1 + rest.length - 1) = true := by
          have harith : k + 1 + rest.length - 1 = k + (tc :: rest).length - 1 := by
            simp only [List.length_cons]
            omega
          rw [harith]
          exact hset
        have hrec := ih (k + 1) hr hset'
        simp only [Agent.executedCountLoop, hk', Bool.false_eq_true, if_false,
          List.length_cons]
        omega

/-- Claim C3 (amended, part 1): for the `Agent` implementation
(crow/internal/agent), with a monotone abort flag set by the end of the act
phase and no executed tool reporting `FINISHED`, the memory gains exactly one
real tool message per executed tool call followed by one empty tool message
(carrying the tool call's id) per unexecuted tool call — and at least the
last stashed tool call is unexecuted. -/
theorem c3_act_abort_empty_messages (flags : Nat → Bool)
    (exec : ToolCall → AgentState × String) (maxObserve maxMem : Int)
    (toolChoice : ToolChoice) (toolCalls : List ToolCall)
    (mem : List Message) (st : AgentState)
    (hmono : ∀ j, flags j = true → flags (j + 1) = true)
    (hnofin : ∀ tc ∈ toolCalls, (exec tc).1 ≠ AgentState.finished)
    (hset : flags toolCalls.length = true) :
    Agent.abortSplit flags toolCalls ≤ toolCalls.length ∧
    (toolCalls ≠ [] → Agent.abortSplit flags toolCalls < toolCalls.length) ∧
    (Agent.act flags exec maxObserve maxMem toolChoice toolCalls mem st).memory =
      mem ++ (toolCalls.take (Agent.abortSplit flags toolCalls)).map
          (Agent.execToolMsg exec maxObserve)
        ++ (toolCalls.drop (Agent.abortSplit flags toolCalls)).map Agent.emptyToolMsg := by
  by_cases h0 : flags 0 = true
  · have hsplit : Agent.abortSplit flags toolCalls = 0 := by
      simp [Agent.abortSplit, h0]
    refine ⟨by omega, fun hne => ?_, ?_⟩
    · rw [hsplit]
      exact List.length_pos.mpr hne
    · rw [hsplit]
      simp only [Agent.act, if_pos h0, List.take_zero, List.map_nil,
        List.append_nil, List.drop_zero]
      exact agent_foldl_emptyToolMsg maxMem toolCalls mem
  · have h0' : flags 0 = false := by simpa using h0
    by_cases hne : toolCalls = []
    · rw [hne] at hset
      simp only [List.length_nil] at hset
      rw [hset] at h0'
      cases h0'
    · have hsplit : Agent.abortSplit flags toolCalls =
          Agent.executedCountLoop flags toolCalls 1 := by
        simp [Agent.abortSplit, h0']
      have hset1 : flags (1 + toolCalls.length - 1) = true := by
        have harith : 1 + toolCalls.length - 1 = toolCalls.length := by omega
        rw [harith]
        exact hset
      have hlt := agent_executedCountLoop_lt flags toolCalls 1 hne hset1
      have hact : Agent.act flags exec maxObserve maxMem toolChoice toolCalls mem st =
          Agent.actLoop flags exec maxObserve maxMem toolCalls 1 mem [] st := by
        rw [Agent.act, if_neg (by simp [h0']), if_neg hne]
      refine ⟨hsplit ▸ agent_executedCountLoop_le flags toolCalls 1,
        fun _ => hsplit ▸ hlt, ?_⟩
      rw [hact, hsplit]
      exact agent_actLoop_memory flags exec maxObserve maxMem hmono
        toolCalls 1 mem [] st hnofin

/-- Claim C3 (counterexample): the `ReActAgent` act phase (package react)
contains no read of the interrupt flag, so even when the flag is set before
the act phase the stashed tool call is executed and answered with its real
result — no empty tool message is appended, contradicting the claim for this
implementation.  (`ReactAgent.act` is the whole act phase; the flag cannot
influence it because it is not among its inputs.) -/
theorem c3_counterexample :
    (ReactAgent.act c3exec 0 20 ToolChoice.auto [c3tc] [] AgentState.running).memory =
      [ToolMessage "R" "f" "a" ""] ∧
    ToolMessage "" "f" "a" "" ∉
      (ReactAgent.act c3exec 0 20 ToolChoice.auto [c3tc] [] AgentState.running).memory := by
  refine ⟨rfl, by decide⟩

/-- Claim C3 (witness): with the abort flag turning true at read 2 (after one
tool call has been executed), `Agent.act` answers the first tool call with
its real result and the second with an empty tool message carrying its id. -/
theorem c3_witness :
    (Agent.act (fun k => decide (2 ≤ k)) c3exec 0 20 ToolChoice.auto
        [c3tc, c3wtc] [] AgentState.running).memory =
      [ToolMessage "R" "f" "a" "", ToolMessage "" "g" "b" ""] := by
  have h := (c3_act_abort_empty_messages (fun k => decide (2 ≤ k)) c3exec 0 20
    ToolChoice.auto [c3tc, c3wtc] [] AgentState.running
    (by intro j hj; simp only [decide_eq_true_eq] at *; omega)
    (by decide) (by decide)).2.2
  exact h.trans (by decide)

end Crow
